import Mathlib

/-!
Verification of the point-mass dynamics base class.

Shallow embedding of `aerosandbox/dynamics/point_mass/common_point_mass.py`
(`_DynamicsPointMassBaseClass`): the state container (`state`, `unpack_state`,
`pack_state`, `_set_state`, `get_new_instance_with_state`), the instance
indexer (`__getitem__`, `__len__`), the trajectory constraint binder
(`constrain_derivatives`), the force accumulator convenience
(`add_gravity_force`), and the derived read-only accessors (`altitude`,
`potential_energy`).

Numeric values are modelled as exact rationals. A state-variable value is
either a scalar or a vector (a trajectory-vectorized quantity); Python dicts
are modelled as insertion-ordered association lists.
-/

namespace AeroDyn

/-- A numeric value held by a dynamics attribute: a scalar, or a vectorized
(trajectory) array. Mirrors the `Union[float, np.ndarray]` values of the
source. -/
inductive Val where
  | scalar (x : Rat)
  | vector (xs : List Rat)
deriving DecidableEq, Repr

/-- The Python exception classes raised by the embedded code. `valueError`
corresponds to `ValueError` (the spec calls these `ShapeMismatchError` /
`UnknownStateVariableError` depending on context), `keyError` to `KeyError`
(a `LookupError`, not a `ValueError`), `indexError` to `IndexError`. -/
inductive PyError where
  | valueError (msg : String)
  | keyError (msg : String)
  | indexError (msg : String)
deriving DecidableEq, Repr

/-- Whether an exception is of `ValueError` class (in Python, `KeyError` and
`IndexError` subclass `LookupError`, not `ValueError`). -/
def PyError.isValueError : PyError → Bool
  | .valueError _ => true
  | _ => false

/-- An ordered name-to-value mapping, as returned by the `state` property:
keys in insertion order, as a Python dict preserves. -/
abbrev DState := List (String × Val)

/-- Embeds `unpack_state` (source lines 108-122): projects a dict-like state into
the tuple of its values, preserving key insertion order. The `None` default
(use own state) is applied at call sites. -/
def unpack_state (dict_like_state : DState) : List Val :=
  dict_like_state.map Prod.snd

/-- Embeds `pack_state` (source lines 124-147): packs an array-like into a dict
keyed by the instance's own state keys. Returns the instance's own state when
the input is `None`; raises `ValueError` when the number of elements differs
from the number of state keys; otherwise zips keys with the given values. -/
def pack_state (self_state : DState) (array_like_state : Option (List Val)) :
    Except PyError DState :=
  match array_like_state with
  | none => Except.ok self_state
  | some arr =>
    if (self_state.map Prod.fst).length = arr.length then
      Except.ok (List.zip (self_state.map Prod.fst) arr)
    else
      Except.error (PyError.valueError
        "There are a differing number of elements in the state variable and the array_like you are trying to pack!")

/-- Embeds `np.length` as used by `__len__`: 1 for a scalar, the array length for a
vector. -/
def vlength : Val → Nat
  | .scalar _ => 1
  | .vector xs => xs.length

/-- The `ValueError` message raised by `__len__` on a length mismatch. -/
def lenMismatchMsg : String :=
  "State variables are appear vectorized, but of different lengths!"

/-- The loop body of `__len__` (source lines 215-226), as a recursion over the
state values with the running `length` accumulator; a mismatch raises
`ValueError`, short-circuiting the loop. -/
def lenGo : Nat → List Val → Except PyError Nat
  | acc, [] => Except.ok acc
  | acc, v :: vs =>
    if vlength v = 1 then lenGo acc vs
    else if acc = 1 then lenGo (vlength v) vs
    else if acc = vlength v then lenGo acc vs
    else Except.error (PyError.valueError lenMismatchMsg)

/-- Embeds `__len__` on a state mapping: starts the scan at length 1. -/
def dynLenState (state : DState) : Except PyError Nat :=
  lenGo 1 (state.map Prod.snd)

/-! ## List helper lemmas -/

theorem zip_fst_snd (l : List (String × Val)) :
    List.zip (l.map Prod.fst) (l.map Prod.snd) = l := by
  induction l with
  | nil => rfl
  | cons hd tl ih => simp [List.zip, ih]

/-! ## C3: pack/unpack round trip -/

/-- C3: for every state mapping, unpacking into the ordered value tuple and
packing that tuple back reproduces the original name-to-value mapping
exactly: `pack_state(unpack_state(D.state)) == D.state`. -/
theorem pack_unpack_roundtrip (s : DState) :
    pack_state s (some (unpack_state s)) = Except.ok s := by
  unfold pack_state unpack_state
  simp [zip_fst_snd]

/-! ## C5: pack_state error and default behavior -/

/-- C5: `pack_state` returns the instance's own state unmodified when the
input is absent (`None`), and fails with the `ShapeMismatchError`-class
`ValueError` whenever the given sequence's length differs from the number of
state keys. -/
theorem pack_state_spec (s : DState) (a : List Val) (h : s.length ≠ a.length) :
    pack_state s none = Except.ok s ∧
    ∃ msg, pack_state s (some a) = Except.error (PyError.valueError msg) := by
  constructor
  · rfl
  · unfold pack_state
    simp only [List.length_map]
    rw [if_neg h]
    exact ⟨_, rfl⟩

/-- Witness for C5 at a concrete instance: one state key, empty array. -/
theorem pack_state_spec_witness :
    pack_state [("x_e", Val.scalar 1)] none = Except.ok [("x_e", Val.scalar 1)] ∧
    ∃ msg, pack_state [("x_e", Val.scalar 1)] (some []) =
      Except.error (PyError.valueError msg) :=
  pack_state_spec [("x_e", Val.scalar 1)] [] (by decide)

/-! ## The dynamics instance and its lifecycle

A concrete dynamics instance is, at the Python level, its `__dict__`:
`mass_props` (set first by `__init__`), then the state variables (constructor
keyword arguments), then the control variables, which `__init__` sets to 0
(base-class `__init__` docstring, source lines 19-25). Stray attributes that
`_set_state` could create by assigning a name outside the declared schema are
outside this model; the theorems below restrict new-state keys to the
declared state schema accordingly. -/

/-- A dynamics instance: mass properties, the ordered state mapping, and the
ordered control-variable mapping, in `__dict__` insertion order. -/
structure Dyn where
  mass_props : Val
  state : DState
  control_vars : DState
deriving DecidableEq, Repr

/-- The effect of calling the class constructor with the given mass
properties and state-variable keyword arguments: per the base-class
`__init__` contract, each control variable is initialized to 0. -/
def construct (mass_props : Val) (state : DState) (controlKeys : List String) : Dyn :=
  ⟨mass_props, state, controlKeys.map (fun k => (k, Val.scalar 0))⟩

/-- Python `setattr(self, k, v)` on a dynamics instance: overwrites the named
attribute. State keys and control keys are disjoint in any concrete variant,
so the two branches cannot both apply; assigning a name outside the modelled
attribute set would create a stray attribute (see `_set_state` docstring in
the source) and is left out of the model. -/
def dynSetattr (d : Dyn) (k : String) (v : Val) : Dyn :=
  if (d.state.map Prod.fst).contains k then
    { d with state := d.state.map (fun kv => if kv.1 = k then (k, v) else kv) }
  else if (d.control_vars.map Prod.fst).contains k then
    { d with control_vars :=
        d.control_vars.map (fun kv => if kv.1 = k then (k, v) else kv) }
  else
    d

/-- The argument accepted by `_set_state` / `get_new_instance_with_state`:
either a dict-like mapping or a positional sequence. -/
inductive NewState where
  | dict (m : DState)
  | arr (a : List Val)

/-- Embeds `_set_state` (source lines 79-106): `None` means no overwrite; a dict is
applied key by key via `setattr`; an iterable without `.keys()` is first
packed via `pack_state` (which can raise the length-mismatch `ValueError`)
and then applied the same way. -/
def set_state (d : Dyn) : Option NewState → Except PyError Dyn
  | none => Except.ok d
  | some (NewState.dict m) =>
    Except.ok (m.foldl (fun dd kv => dynSetattr dd kv.1 kv.2) d)
  | some (NewState.arr a) =>
    match pack_state d.state (some a) with
    | Except.ok packed =>
      Except.ok (packed.foldl (fun dd kv => dynSetattr dd kv.1 kv.2) d)
    | Except.error e => Except.error e

/-- Embeds `get_new_instance_with_state` (source lines 45-77): rebuilds a fresh
instance by passing the current instance's constructor-argument attributes
(mass properties and state variables) back to the constructor — which zeroes
every control variable — and then overwrites the state via `_set_state`. -/
def get_new_instance_with_state (d : Dyn) (new_state : Option NewState) :
    Except PyError Dyn :=
  set_state (construct d.mass_props d.state (d.control_vars.map Prod.fst)) new_state

/-- The `IndexError` message raised by `get_item_of_attribute`. -/
def oobMsg : String :=
  "A state variable could not be indexed, since the index is out of range!"

/-- Python sequence index resolution: a negative index counts from the end. -/
def pyIndex (index : Int) (n : Nat) : Int :=
  if index < 0 then index + n else index

/-- Embeds `get_item_of_attribute` (source lines 200-206): `a[index]`. A scalar is
not subscriptable (`TypeError`), so it is returned unchanged; a vector is
indexed Python-style (negative indices wrap), raising `IndexError` when the
index is out of range. -/
def get_item_of_attribute (index : Int) : Val → Except PyError Val
  | Val.scalar x => Except.ok (Val.scalar x)
  | Val.vector xs =>
    if 0 ≤ pyIndex index xs.length ∧ pyIndex index xs.length < (xs.length : Int) then
      Except.ok (Val.scalar (xs.getD (pyIndex index xs.length).toNat 0))
    else
      Except.error (PyError.indexError oobMsg)

/-- Indexing each entry of an ordered attribute mapping, propagating the
first `IndexError` as the loop in `__getitem__` does. -/
def indexEntries (index : Int) : DState → Except PyError DState
  | [] => Except.ok []
  | kv :: rest => do
    let v ← get_item_of_attribute index kv.2
    let r ← indexEntries index rest
    pure ((kv.1, v) :: r)

/-- Embeds `__getitem__` (source lines 187-213): first derives a fresh instance via
`get_new_instance_with_state()` (zeroing control variables), then replaces
every attribute of that instance's `__dict__` by its indexed value. -/
def dynGetitem (d : Dyn) (index : Int) : Except PyError Dyn := do
  let d0 ← get_new_instance_with_state d none
  let m ← get_item_of_attribute index d0.mass_props
  let s ← indexEntries index d0.state
  let c ← indexEntries index d0.control_vars
  pure ⟨m, s, c⟩

/-- Embeds `__len__` of an instance: it scans the values of its `state` property. -/
def dynLen (d : Dyn) : Except PyError Nat :=
  dynLenState d.state

/-- Whether every key of the proposed new state belongs to the declared state
schema (dict case), or the sequence has as many entries as there are state
keys (positional case). A proposed state violating this would create stray
attributes or raise, respectively. -/
def validNewState (d : Dyn) : Option NewState → Bool
  | none => true
  | some (NewState.dict m) =>
    (m.map Prod.fst).all (fun k => (d.state.map Prod.fst).contains k)
  | some (NewState.arr a) => d.state.length == a.length

/-! ## C2: deriving a new instance resets control variables -/

theorem map_fst_update (l : DState) (k : String) (v : Val) :
    (l.map (fun kv => if kv.1 = k then (k, v) else kv)).map Prod.fst =
      l.map Prod.fst := by
  induction l with
  | nil => rfl
  | cons hd tl ih =>
    by_cases h : hd.1 = k <;> simp [h, ih]

theorem dynSetattr_state_key (d : Dyn) (k : String) (v : Val)
    (hk : (d.state.map Prod.fst).contains k = true) :
    (dynSetattr d k v).mass_props = d.mass_props ∧
    (dynSetattr d k v).control_vars = d.control_vars ∧
    (dynSetattr d k v).state.map Prod.fst = d.state.map Prod.fst := by
  unfold dynSetattr
  rw [if_pos hk]
  exact ⟨rfl, rfl, map_fst_update d.state k v⟩

theorem foldl_setattr_inv : ∀ (m : DState) (d : Dyn),
    (∀ k ∈ m.map Prod.fst, (d.state.map Prod.fst).contains k = true) →
    (m.foldl (fun dd kv => dynSetattr dd kv.1 kv.2) d).mass_props = d.mass_props ∧
    (m.foldl (fun dd kv => dynSetattr dd kv.1 kv.2) d).control_vars = d.control_vars ∧
    (m.foldl (fun dd kv => dynSetattr dd kv.1 kv.2) d).state.map Prod.fst =
      d.state.map Prod.fst := by
  intro m
  induction m with
  | nil => exact fun d _ => ⟨rfl, rfl, rfl⟩
  | cons hd tl ih =>
    intro d h
    simp only [List.foldl_cons]
    have hhd : (d.state.map Prod.fst).contains hd.1 = true := h hd.1 (by simp)
    have h1 := dynSetattr_state_key d hd.1 hd.2 hhd
    have htl := ih (dynSetattr d hd.1 hd.2) (fun k hk => by
      rw [h1.2.2]; exact h k (by simp [hk]))
    exact ⟨htl.1.trans h1.1, htl.2.1.trans h1.2.1, htl.2.2.trans h1.2.2⟩

/-- C2: for every dynamics instance and every valid new state (a mapping over
declared state keys, a positional sequence of matching length, or `None`),
`get_new_instance_with_state` succeeds and yields an instance whose control
variables all equal their construction-time default 0 — even when the source
instance held nonzero accumulated forces — while the mass properties and the
constructor-visible state schema are carried over from the source. -/
theorem new_instance_resets_controls (d : Dyn) (ns : Option NewState)
    (hvalid : validNewState d ns = true) :
    ∃ d', get_new_instance_with_state d ns = Except.ok d' ∧
      d'.mass_props = d.mass_props ∧
      d'.control_vars =
        (d.control_vars.map Prod.fst).map (fun k => (k, Val.scalar 0)) ∧
      d'.state.map Prod.fst = d.state.map Prod.fst := by
  unfold get_new_instance_with_state
  match ns with
  | none => exact ⟨_, rfl, rfl, rfl, rfl⟩
  | some (NewState.dict m) =>
    refine ⟨_, rfl, ?_⟩
    have hall : ∀ k ∈ m.map Prod.fst,
        ((construct d.mass_props d.state
          (d.control_vars.map Prod.fst)).state.map Prod.fst).contains k = true := by
      intro k hk
      exact List.all_eq_true.mp hvalid k hk
    have h := foldl_setattr_inv m
      (construct d.mass_props d.state (d.control_vars.map Prod.fst)) hall
    exact ⟨h.1, h.2.1, h.2.2⟩
  | some (NewState.arr a) =>
    have hlen : d.state.length = a.length := by
      simpa [validNewState] using hvalid
    have hpack : pack_state (construct d.mass_props d.state
        (d.control_vars.map Prod.fst)).state (some a) =
        Except.ok (List.zip (d.state.map Prod.fst) a) := by
      unfold pack_state construct
      simp [hlen]
    simp only [set_state, hpack]
    refine ⟨_, rfl, ?_⟩
    have hkeys : (List.zip (d.state.map Prod.fst) a).map Prod.fst =
        d.state.map Prod.fst := by
      apply List.map_fst_zip
      simpa using hlen.le
    have hall : ∀ k ∈ (List.zip (d.state.map Prod.fst) a).map Prod.fst,
        ((construct d.mass_props d.state
          (d.control_vars.map Prod.fst)).state.map Prod.fst).contains k = true := by
      intro k hk
      rw [hkeys] at hk
      exact List.elem_eq_true_of_mem hk
    have h := foldl_setattr_inv (List.zip (d.state.map Prod.fst) a)
      (construct d.mass_props d.state (d.control_vars.map Prod.fst)) hall
    exact ⟨h.1, h.2.1, h.2.2⟩

/-- Witness for C2: a source instance with a nonzero accumulated force and a
dict-valued new state; the derived instance has its control variable reset to
0 and its mass carried over. -/
theorem new_instance_resets_controls_witness :
    ∃ d', get_new_instance_with_state
        ⟨Val.scalar 2, [("x_e", Val.scalar 0), ("u_e", Val.scalar 3)],
          [("Fx_e", Val.scalar 5)]⟩
        (some (NewState.dict [("x_e", Val.scalar 7)])) = Except.ok d' ∧
      d'.mass_props = Val.scalar 2 ∧
      d'.control_vars = ([("Fx_e", Val.scalar 5)].map
        (Prod.fst (α := String) (β := Val))).map (fun k => (k, Val.scalar 0)) ∧
      d'.state.map Prod.fst = [("x_e", Val.scalar 0),
        ("u_e", Val.scalar 3)].map Prod.fst :=
  new_instance_resets_controls
    ⟨Val.scalar 2, [("x_e", Val.scalar 0), ("u_e", Val.scalar 3)],
      [("Fx_e", Val.scalar 5)]⟩
    (some (NewState.dict [("x_e", Val.scalar 7)])) (by decide)

/-! ## C6: the length operator -/

theorem lenGo_all_scalar : ∀ (vs : List Val) (acc : Nat),
    (∀ v ∈ vs, vlength v = 1) → lenGo acc vs = Except.ok acc := by
  intro vs
  induction vs with
  | nil => intro acc _; rfl
  | cons hd tl ih =>
    intro acc h
    have hhd : vlength hd = 1 := h hd (by simp)
    simp only [lenGo, if_pos hhd]
    exact ih acc (fun v hv => h v (by simp [hv]))

theorem lenGo_acc_matches : ∀ (vs : List Val) (N : Nat), N ≠ 1 →
    (∀ v ∈ vs, vlength v = 1 ∨ vlength v = N) → lenGo N vs = Except.ok N := by
  intro vs
  induction vs with
  | nil => intro N _ _; rfl
  | cons hd tl ih =>
    intro N hN h
    have htl := ih N hN (fun v hv => h v (by simp [hv]))
    rcases h hd (by simp) with hhd | hhd
    · simp only [lenGo, if_pos hhd]; exact htl
    · by_cases h1 : vlength hd = 1
      · simp only [lenGo, if_pos h1]; exact htl
      · rw [show lenGo N (hd :: tl) = lenGo N tl from by
          simp [lenGo, h1, hN, hhd]]
        exact htl

theorem lenGo_from_one : ∀ (vs : List Val) (N : Nat), N ≠ 1 →
    (∀ v ∈ vs, vlength v = 1 ∨ vlength v = N) →
    (∃ v ∈ vs, vlength v = N) → lenGo 1 vs = Except.ok N := by
  intro vs
  induction vs with
  | nil =>
    intro N _ _ hex
    rcases hex with ⟨v, hv, _⟩
    exact absurd hv (by simp)
  | cons hd tl ih =>
    intro N hN h hex
    by_cases h1 : vlength hd = 1
    · simp only [lenGo, if_pos h1]
      apply ih N hN (fun v hv => h v (by simp [hv]))
      rcases hex with ⟨v, hv, hvN⟩
      rcases List.mem_cons.mp hv with rfl | hvtl
      · exact absurd h1 (hvN ▸ hN)
      · exact ⟨v, hvtl, hvN⟩
    · have hhd : vlength hd = N := (h hd (by simp)).resolve_left h1
      rw [show lenGo 1 (hd :: tl) = lenGo (vlength hd) tl from by
        simp [lenGo, h1]]
      rw [hhd]
      exact lenGo_acc_matches tl N hN (fun v hv => h v (by simp [hv]))

theorem lenGo_err_from_acc : ∀ (vs : List Val) (a : Nat), a ≠ 1 →
    (∃ v ∈ vs, vlength v ≠ 1 ∧ vlength v ≠ a) →
    ∃ msg, lenGo a vs = Except.error (PyError.valueError msg) := by
  intro vs
  induction vs with
  | nil =>
    intro a _ hex
    rcases hex with ⟨v, hv, _⟩
    exact absurd hv (by simp)
  | cons hd tl ih =>
    intro a ha hex
    by_cases h1 : vlength hd = 1
    · simp only [lenGo, if_pos h1]
      apply ih a ha
      rcases hex with ⟨v, hv, hvp⟩
      rcases List.mem_cons.mp hv with rfl | hvtl
      · exact absurd h1 hvp.1
      · exact ⟨v, hvtl, hvp⟩
    · by_cases hmatch : a = vlength hd
      · simp only [lenGo, if_neg h1, if_neg ha, if_pos hmatch]
        apply ih a ha
        rcases hex with ⟨v, hv, hvp⟩
        rcases List.mem_cons.mp hv with rfl | hvtl
        · exact absurd hmatch.symm hvp.2
        · exact ⟨v, hvtl, hvp⟩
      · exact ⟨lenMismatchMsg, by
          simp only [lenGo, if_neg h1, if_neg ha, if_neg hmatch]⟩

theorem lenGo_err_two_mismatched : ∀ (vs : List Val),
    (∃ v1 ∈ vs, ∃ v2 ∈ vs, vlength v1 ≠ 1 ∧ vlength v2 ≠ 1 ∧
      vlength v1 ≠ vlength v2) →
    ∃ msg, lenGo 1 vs = Except.error (PyError.valueError msg) := by
  intro vs
  induction vs with
  | nil =>
    intro hex
    rcases hex with ⟨v1, hv1, _⟩
    exact absurd hv1 (by simp)
  | cons hd tl ih =>
    intro hex
    rcases hex with ⟨v1, hv1, v2, hv2, h11, h21, h12⟩
    by_cases h1 : vlength hd = 1
    · simp only [lenGo, if_pos h1]
      apply ih
      have hv1tl : v1 ∈ tl := by
        rcases List.mem_cons.mp hv1 with rfl | h
        · exact absurd h1 h11
        · exact h
      have hv2tl : v2 ∈ tl := by
        rcases List.mem_cons.mp hv2 with rfl | h
        · exact absurd h1 h21
        · exact h
      exact ⟨v1, hv1tl, v2, hv2tl, h11, h21, h12⟩
    · simp only [lenGo, if_neg h1, if_pos rfl]
      apply lenGo_err_from_acc tl (vlength hd) h1
      by_cases hw1 : vlength v1 = vlength hd
      · have hv2tl : v2 ∈ tl := by
          rcases List.mem_cons.mp hv2 with rfl | h
          · exact absurd hw1.symm (hw1 ▸ h12)
          · exact h
        exact ⟨v2, hv2tl, h21, fun hc => h12 (hw1.trans hc.symm)⟩
      · have hv1tl : v1 ∈ tl := by
          rcases List.mem_cons.mp hv1 with rfl | h
          · exact absurd rfl hw1
          · exact h
        exact ⟨v1, hv1tl, h11, hw1⟩

/-- C6: the length operator returns 1 when every state value is scalar,
returns the common vectorized length `N` when every state value is scalar or
a length-`N` vectorized value (with at least one vectorized), and fails with
the `ShapeMismatchError`-class `ValueError` whenever two vectorized state
values disagree on their length (scalar entries are excluded from the check
and broadcast). -/
theorem len_spec (state : DState) (N : Nat) :
    ((∀ v ∈ state.map Prod.snd, vlength v = 1) →
      dynLenState state = Except.ok 1) ∧
    (N ≠ 1 → (∀ v ∈ state.map Prod.snd, vlength v = 1 ∨ vlength v = N) →
      (∃ v ∈ state.map Prod.snd, vlength v = N) →
      dynLenState state = Except.ok N) ∧
    (∀ v1 ∈ state.map Prod.snd, ∀ v2 ∈ state.map Prod.snd,
      vlength v1 ≠ 1 → vlength v2 ≠ 1 → vlength v1 ≠ vlength v2 →
      ∃ msg, dynLenState state = Except.error (PyError.valueError msg)) := by
  refine ⟨?_, ?_, ?_⟩
  · intro h
    exact lenGo_all_scalar (state.map Prod.snd) 1 h
  · intro hN hall hex
    exact lenGo_from_one (state.map Prod.snd) N hN hall hex
  · intro v1 hv1 v2 hv2 h11 h21 h12
    exact lenGo_err_two_mismatched (state.map Prod.snd)
      ⟨v1, hv1, v2, hv2, h11, h21, h12⟩

/-- Witness for C6: an all-scalar state has length 1; a state mixing scalars
with length-2 vectors has length 2; a state with a length-2 and a length-3
vector raises the mismatch error. -/
theorem len_spec_witness :
    dynLenState [("x_e", Val.scalar 0)] = Except.ok 1 ∧
    dynLenState [("x_e", Val.scalar 0), ("u_e", Val.vector [1, 2])] =
      Except.ok 2 ∧
    ∃ msg, dynLenState [("u_e", Val.vector [1, 2]), ("w_e", Val.vector [1, 2, 3])] =
      Except.error (PyError.valueError msg) :=
  ⟨(len_spec [("x_e", Val.scalar 0)] 1).1 (by decide),
   (len_spec [("x_e", Val.scalar 0), ("u_e", Val.vector [1, 2])] 2).2.1
     (by decide) (by decide) (by decide),
   (len_spec [("u_e", Val.vector [1, 2]), ("w_e", Val.vector [1, 2, 3])] 0).2.2
     (Val.vector [1, 2]) (by decide) (Val.vector [1, 2, 3]) (by decide)
     (by decide) (by decide) (by decide)⟩

/-! ## C4 and C7: the instance indexer -/

/-- A value that is a scalar, or a vectorized value of length `N`. -/
def scalarOrLenB (N : Nat) : Val → Bool
  | Val.scalar _ => true
  | Val.vector xs => xs.length == N

/-- The i-th time slice of a value: a scalar passes through, a vector yields
its i-th element. Used to state what indexing produces. -/
def indexedVal (i : Nat) : Val → Val
  | Val.scalar x => Val.scalar x
  | Val.vector xs => Val.scalar (xs.getD i 0)

theorem indexedVal_vlength (i : Nat) (v : Val) : vlength (indexedVal i v) = 1 := by
  cases v <;> rfl

theorem scalarOrLenB_vlength (N : Nat) (v : Val) (h : scalarOrLenB N v = true) :
    vlength v = 1 ∨ vlength v = N := by
  cases v with
  | scalar x => exact Or.inl rfl
  | vector xs => exact Or.inr (by simpa [scalarOrLenB] using h)

theorem except_bind_ok {α β : Type} (a : α) (f : α → Except PyError β) :
    (Except.ok a >>= f) = f a := rfl

theorem except_bind_error {α β : Type} (e : PyError) (f : α → Except PyError β) :
    ((Except.error e : Except PyError α) >>= f) = Except.error e := rfl

theorem pyIndex_nonneg (i : Int) (n : Nat) (hi0 : 0 ≤ i) : pyIndex i n = i := by
  simp [pyIndex, not_lt.mpr hi0]

theorem get_item_in_range (N : Nat) (i : Int) (v : Val)
    (hv : scalarOrLenB N v = true) (hi0 : 0 ≤ i) (hiN : i < (N : Int)) :
    get_item_of_attribute i v = Except.ok (indexedVal i.toNat v) := by
  cases v with
  | scalar x => rfl
  | vector xs =>
    have hlen : xs.length = N := by simpa [scalarOrLenB] using hv
    simp only [get_item_of_attribute, indexedVal]
    rw [pyIndex_nonneg i xs.length hi0]
    rw [if_pos ⟨hi0, by rw [hlen]; exact hiN⟩]

theorem get_item_oob_vector (i : Int) (xs : List Rat) (hi0 : 0 ≤ i)
    (hlen : (xs.length : Int) ≤ i) :
    get_item_of_attribute i (Val.vector xs) =
      Except.error (PyError.indexError oobMsg) := by
  simp only [get_item_of_attribute]
  rw [pyIndex_nonneg i xs.length hi0]
  rw [if_neg]
  intro hc
  exact absurd hc.2 (not_lt.mpr hlen)

theorem get_item_error_eq (i : Int) (v : Val) (e : PyError)
    (h : get_item_of_attribute i v = Except.error e) :
    e = PyError.indexError oobMsg := by
  cases v with
  | scalar x => exact absurd h (by simp [get_item_of_attribute])
  | vector xs =>
    by_cases hc : 0 ≤ pyIndex i xs.length ∧
        pyIndex i xs.length < (xs.length : Int)
    · rw [get_item_of_attribute, if_pos hc] at h
      exact absurd h (by simp)
    · rw [get_item_of_attribute, if_neg hc] at h
      exact (Except.error.inj h).symm

theorem indexEntries_ok (N : Nat) (i : Int) (hi0 : 0 ≤ i) (hiN : i < (N : Int)) :
    ∀ l : DState, (∀ v ∈ l.map Prod.snd, scalarOrLenB N v = true) →
    indexEntries i l =
      Except.ok (l.map (fun kv => (kv.1, indexedVal i.toNat kv.2))) := by
  intro l
  induction l with
  | nil => intro _; rfl
  | cons hd tl ih =>
    intro h
    have hhd := get_item_in_range N i hd.2 (h hd.2 (by simp)) hi0 hiN
    have htl := ih (fun v hv => h v (by simp [hv]))
    simp [indexEntries, hhd, htl, except_bind_ok]

theorem indexEntries_err (i : Int) (hi0 : 0 ≤ i) :
    ∀ l : DState,
    (∃ kv ∈ l, ∃ xs, kv.2 = Val.vector xs ∧ (xs.length : Int) ≤ i) →
    indexEntries i l = Except.error (PyError.indexError oobMsg) := by
  intro l
  induction l with
  | nil =>
    rintro ⟨kv, hkv, _⟩
    exact absurd hkv (by simp)
  | cons hd tl ih =>
    rintro ⟨kv, hkv, xs, hxs, hlen⟩
    rcases List.mem_cons.mp hkv with rfl | htl
    · have h2 : get_item_of_attribute i kv.2 =
          Except.error (PyError.indexError oobMsg) := by
        rw [hxs]; exact get_item_oob_vector i xs hi0 hlen
      simp [indexEntries, h2, except_bind_error]
    · cases hres : get_item_of_attribute i hd.2 with
      | error e =>
        rw [get_item_error_eq i hd.2 e hres] at hres
        simp [indexEntries, hres, except_bind_error]
      | ok v =>
        simp [indexEntries, hres, except_bind_ok,
          ih ⟨kv, htl, xs, hxs, hlen⟩, except_bind_error]

/-- Counterexample to C4 as stated: `__getitem__` derives the new instance
via `get_new_instance_with_state()`, which resets control variables to 0, so
a non-subscriptable scalar attribute is NOT always passed through unchanged.
Here the source instance carries an accumulated scalar force of 5, yet the
indexed instance holds 0 for it. -/
theorem getitem_control_not_passed_through :
    dynGetitem
      ⟨Val.scalar 1, [("x_e", Val.vector [10, 20])], [("Fx_e", Val.scalar 5)]⟩ 0 =
      Except.ok
        ⟨Val.scalar 1, [("x_e", Val.scalar 10)], [("Fx_e", Val.scalar 0)]⟩ ∧
    [("Fx_e", Val.scalar 0)] ≠ [("Fx_e", Val.scalar 5)] := by
  exact ⟨rfl, by decide⟩

/-- C4 amended: for an instance whose subscriptable attributes (mass
properties and state values) are scalars or length-`N` vectors, `len(D) = N`
and indexing at `i ∈ [0, N)` succeeds, yielding an instance of vectorized
length 1 whose mass properties and state variables are the i-th slice of the
original's (vectors indexed, scalars passed through) — while the control
variables are reset to their construction-time default 0 by the
`get_new_instance_with_state()` call inside `__getitem__`, rather than being
passed through from the original. -/
theorem getitem_spec (d : Dyn) (N : Nat) (i : Int)
    (hm : scalarOrLenB N d.mass_props = true)
    (hs : ∀ v ∈ d.state.map Prod.snd, scalarOrLenB N v = true)
    (hex : (∃ v ∈ d.state.map Prod.snd, vlength v = N) ∨ N = 1)
    (hi0 : 0 ≤ i) (hiN : i < (N : Int)) :
    dynLen d = Except.ok N ∧
    dynGetitem d i = Except.ok
      ⟨indexedVal i.toNat d.mass_props,
       d.state.map (fun kv => (kv.1, indexedVal i.toNat kv.2)),
       d.control_vars.map (fun kv => (kv.1, Val.scalar 0))⟩ ∧
    dynLenState (d.state.map (fun kv => (kv.1, indexedVal i.toNat kv.2))) =
      Except.ok 1 := by
  refine ⟨?_, ?_, ?_⟩
  · by_cases hN : N = 1
    · subst hN
      apply lenGo_all_scalar
      intro v hv
      rcases scalarOrLenB_vlength 1 v (hs v hv) with h | h <;> exact h
    · rcases hex with hex | hex
      · exact lenGo_from_one (d.state.map Prod.snd) N hN
          (fun v hv => scalarOrLenB_vlength N v (hs v hv)) hex
      · exact absurd hex hN
  · have h0 : get_new_instance_with_state d none = Except.ok
        (construct d.mass_props d.state (d.control_vars.map Prod.fst)) := rfl
    have hmass := get_item_in_range N i d.mass_props hm hi0 hiN
    have hstate := indexEntries_ok N i hi0 hiN d.state hs
    have hctrl := indexEntries_ok N i hi0 hiN
      ((d.control_vars.map Prod.fst).map (fun k => (k, Val.scalar 0)))
      (by intro v hv; simp only [List.map_map, List.mem_map] at hv
          obtain ⟨kv, _, rfl⟩ := hv; rfl)
    simp only [dynGetitem, h0, except_bind_ok]
    simp only [construct] at hmass hstate hctrl ⊢
    simp only [hmass, hstate, hctrl, except_bind_ok]
    simp only [List.map_map]
    rfl
  · apply lenGo_all_scalar
    intro v hv
    simp only [List.map_map, List.mem_map] at hv
    obtain ⟨kv, _, rfl⟩ := hv
    exact indexedVal_vlength i.toNat kv.2

/-- Witness for C4 (amended) at a concrete instance with a length-2
vectorized state variable, a scalar state variable, and a nonzero accumulated
force, indexed at 1. -/
theorem getitem_spec_witness :
    dynLen ⟨Val.scalar 1,
      [("x_e", Val.vector [10, 20]), ("u_e", Val.scalar 3)],
      [("Fx_e", Val.scalar 5)]⟩ = Except.ok 2 ∧
    dynGetitem ⟨Val.scalar 1,
      [("x_e", Val.vector [10, 20]), ("u_e", Val.scalar 3)],
      [("Fx_e", Val.scalar 5)]⟩ 1 = Except.ok
      ⟨indexedVal (Int.toNat 1) (Val.scalar 1),
       [("x_e", Val.vector [10, 20]), ("u_e", Val.scalar 3)].map
         (fun kv => (kv.1, indexedVal (Int.toNat 1) kv.2)),
       [("Fx_e", Val.scalar 5)].map (fun kv => (kv.1, Val.scalar 0))⟩ ∧
    dynLenState ([("x_e", Val.vector [10, 20]), ("u_e", Val.scalar 3)].map
      (fun kv => (kv.1, indexedVal (Int.toNat 1) kv.2))) = Except.ok 1 :=
  getitem_spec
    ⟨Val.scalar 1, [("x_e", Val.vector [10, 20]), ("u_e", Val.scalar 3)],
      [("Fx_e", Val.scalar 5)]⟩ 2 1
    (by decide) (by decide) (Or.inl (by decide)) (by decide) (by decide)

/-- Counterexample to C7 as stated: an instance whose attributes are all
scalar has vectorized length 1, yet indexing it with 2 — which exceeds that
length — succeeds instead of raising `IndexError`, because a scalar is not
subscriptable and the `TypeError` is swallowed, passing the scalar through. -/
theorem index_oob_counterexample :
    dynLen ⟨Val.scalar 1, [("x_e", Val.scalar 3)], [("Fx_e", Val.scalar 0)]⟩ =
      Except.ok 1 ∧
    dynGetitem ⟨Val.scalar 1, [("x_e", Val.scalar 3)], [("Fx_e", Val.scalar 0)]⟩ 2 =
      Except.ok ⟨Val.scalar 1, [("x_e", Val.scalar 3)], [("Fx_e", Val.scalar 0)]⟩ := by
  exact ⟨rfl, rfl⟩

/-- C7 amended: indexing with a nonnegative integer index fails with the
`IndexOutOfRangeError`-class `IndexError` whenever some subscriptable
(vector-valued) attribute of the instance — its mass properties or a state
variable — is too short for the index; an instance with no subscriptable
attribute is returned (with control variables reset) for any index, the
scalars passing through. -/
theorem getitem_oob (d : Dyn) (i : Int) (hi0 : 0 ≤ i)
    (hex : ∃ v ∈ d.mass_props :: d.state.map Prod.snd,
      ∃ xs, v = Val.vector xs ∧ (xs.length : Int) ≤ i) :
    dynGetitem d i = Except.error (PyError.indexError oobMsg) := by
  have h0 : get_new_instance_with_state d none = Except.ok
      (construct d.mass_props d.state (d.control_vars.map Prod.fst)) := rfl
  rcases hex with ⟨v, hv, xs, hxs, hlen⟩
  rcases List.mem_cons.mp hv with rfl | hvs
  · have hmass : get_item_of_attribute i d.mass_props =
        Except.error (PyError.indexError oobMsg) := by
      rw [hxs]; exact get_item_oob_vector i xs hi0 hlen
    simp only [dynGetitem, h0, except_bind_ok, construct] at *
    simp only [hmass, except_bind_error]
  · cases hmass : get_item_of_attribute i d.mass_props with
    | error e =>
      rw [get_item_error_eq i d.mass_props e hmass] at hmass
      simp only [dynGetitem, h0, except_bind_ok, construct] at *
      simp only [hmass, except_bind_error]
    | ok m =>
      obtain ⟨kv, hkv, hkv2⟩ := List.mem_map.mp hvs
      have hst := indexEntries_err i hi0 d.state
        ⟨kv, hkv, xs, by rw [hkv2, hxs], hlen⟩
      simp only [dynGetitem, h0, except_bind_ok, construct] at *
      simp only [hmass, except_bind_ok, hst, except_bind_error]

/-- Witness for C7 (amended): indexing a length-2 vectorized instance at 5
raises the out-of-range `IndexError`. -/
theorem getitem_oob_witness :
    dynGetitem ⟨Val.scalar 1, [("x_e", Val.vector [10, 20])],
      [("Fx_e", Val.scalar 0)]⟩ 5 =
      Except.error (PyError.indexError oobMsg) :=
  getitem_oob
    ⟨Val.scalar 1, [("x_e", Val.vector [10, 20])], [("Fx_e", Val.scalar 0)]⟩ 5
    (by decide) ⟨Val.vector [10, 20], by decide, [10, 20], rfl, by decide⟩

/-! ## C1 and C8: the trajectory constraint binder

`constrain_derivatives` (source lines 237-289) reads the instance's `state`
and `state_derivatives()` dicts; a variant's `state_derivatives()` returns a
dict with the same keys as `state`, where a `None` value marks a state
variable with no enforced dynamics. The external `opti.constrain_derivative`
call is abstracted as a function from (derivative, variable) to success or an
exception message. -/

/-- The data `constrain_derivatives` reads from the instance: the `state`
dict and the `state_derivatives()` dict (whose values may be `None`). -/
structure DynC where
  state : DState
  state_derivatives : List (String × Option Val)

/-- Python dict lookup `m[k]`: raises `KeyError(k)` when the key is absent. -/
def dictGet {α : Type} (m : List (String × α)) (k : String) : Except PyError α :=
  match m.find? (fun kv => kv.1 == k) with
  | some kv => Except.ok kv.2
  | none => Except.error (PyError.keyError k)

/-- The `which` argument: the string `"all"` or a list of state names. -/
inductive Which where
  | all
  | names (l : List String)

/-- Resolution of `which` (source lines 267-268): `"all"` becomes the keys of
the `state` dict. -/
def resolveWhich (d : DynC) : Which → List String
  | Which.all => d.state.map Prod.fst
  | Which.names l => l

/-- The loop of `constrain_derivatives` (source lines 272-289). For each
selected name: the lookup `state_derivatives[state_var_name]` on line 275
happens OUTSIDE the `try` block, so an unknown name raises a bare `KeyError`;
a `None` derivative is skipped; otherwise the `try` block looks up
`self.state[state_var_name]` (a `KeyError` there is converted to the naming
`ValueError` of line 287) and calls `opti.constrain_derivative`, whose
exceptions are wrapped in the `ValueError` of line 289. Returns the names
successfully constrained, in order. -/
def constrainGo (d : DynC) (opti : Val → Val → Except String Unit) :
    List String → Except PyError (List String)
  | [] => Except.ok []
  | k :: rest =>
    match dictGet d.state_derivatives k with
    | Except.error e => Except.error e
    | Except.ok none => constrainGo d opti rest
    | Except.ok (some dval) =>
      match dictGet d.state k with
      | Except.error _ =>
        Except.error (PyError.valueError
          ("This dynamics instance does not have a state named " ++ k ++ "!"))
      | Except.ok sval =>
        match opti dval sval with
        | Except.error e =>
          Except.error (PyError.valueError
            ("Error while constraining state variable " ++ k ++ ": " ++ e))
        | Except.ok _ =>
          match constrainGo d opti rest with
          | Except.error e => Except.error e
          | Except.ok names => Except.ok (k :: names)

/-- Embeds `constrain_derivatives`: resolve `which`, then run the loop. -/
def constrain_derivatives (d : DynC) (opti : Val → Val → Except String Unit)
    (which : Which) : Except PyError (List String) :=
  constrainGo d opti (resolveWhich d which)

/-- C1 fails on the code: on an instance whose declared state (and hence its
`state_derivatives()` dict, which has the same keys) lacks `"x_e"`, calling
`constrain_derivatives` with `which=["x_e"]` raises a bare `KeyError` from
the `None`-skip lookup on line 275 — which sits outside the `try` block — so
the `ValueError`-class error naming the variable (line 287) is never reached.
`KeyError` is a `LookupError`, not a `ValueError`-class exception. -/
theorem constrain_unknown_state_keyerror :
    constrain_derivatives
      ⟨[("altitude", Val.scalar 0)], [("altitude", some (Val.scalar 1))]⟩
      (fun _ _ => Except.ok ()) (Which.names ["x_e"]) =
      Except.error (PyError.keyError "x_e") ∧
    PyError.isValueError (PyError.keyError "x_e") = false := by
  exact ⟨rfl, rfl⟩

theorem constrainGo_all_none (d : DynC) (opti : Val → Val → Except String Unit) :
    ∀ ks : List String,
    (∀ k ∈ ks, dictGet d.state_derivatives k = Except.ok none) →
    constrainGo d opti ks = Except.ok [] := by
  intro ks
  induction ks with
  | nil => intro _; rfl
  | cons hd tl ih =>
    intro h
    have hhd := h hd (by simp)
    simp only [constrainGo, hhd]
    exact ih (fun k hk => h k (by simp [hk]))

/-- C8: with `which="all"` the binder iterates over exactly the keys of the
`state` mapping, and every selected state variable whose entry in
`state_derivatives()` is `None` is skipped — no constraint is imposed for it
and no failure is raised, the loop simply proceeding with the remaining
names; in particular an instance all of whose derivatives are `None` yields
no constraints at all. -/
theorem constrain_skips_none (d : DynC) (opti : Val → Val → Except String Unit)
    (k : String) (rest : List String)
    (hk : dictGet d.state_derivatives k = Except.ok none) :
    resolveWhich d Which.all = d.state.map Prod.fst ∧
    constrainGo d opti (k :: rest) = constrainGo d opti rest ∧
    ((∀ k' ∈ d.state.map Prod.fst,
        dictGet d.state_derivatives k' = Except.ok none) →
      constrain_derivatives d opti Which.all = Except.ok []) := by
  refine ⟨rfl, ?_, ?_⟩
  · simp only [constrainGo, hk]
  · intro hall
    exact constrainGo_all_none d opti (d.state.map Prod.fst) hall

/-- Witness for C8: a two-variable instance where `x_e` has a `None`
derivative — the loop skips it, and with all derivatives `None` the call
returns no constraints. -/
theorem constrain_skips_none_witness :
    resolveWhich ⟨[("x_e", Val.scalar 0), ("u_e", Val.scalar 3)],
      [("x_e", none), ("u_e", none)]⟩ Which.all =
      [("x_e", Val.scalar 0), ("u_e", Val.scalar 3)].map Prod.fst ∧
    constrainGo ⟨[("x_e", Val.scalar 0), ("u_e", Val.scalar 3)],
      [("x_e", none), ("u_e", none)]⟩ (fun _ _ => Except.ok ())
      ["x_e", "u_e"] = constrainGo ⟨[("x_e", Val.scalar 0), ("u_e", Val.scalar 3)],
      [("x_e", none), ("u_e", none)]⟩ (fun _ _ => Except.ok ()) ["u_e"] ∧
    ((∀ k' ∈ [("x_e", Val.scalar 0), ("u_e", Val.scalar 3)].map
        (Prod.fst (α := String) (β := Val)),
      dictGet [("x_e", (none : Option Val)), ("u_e", none)] k' = Except.ok none) →
      constrain_derivatives ⟨[("x_e", Val.scalar 0), ("u_e", Val.scalar 3)],
        [("x_e", none), ("u_e", none)]⟩ (fun _ _ => Except.ok ()) Which.all =
        Except.ok []) :=
  constrain_skips_none
    ⟨[("x_e", Val.scalar 0), ("u_e", Val.scalar 3)],
      [("x_e", none), ("u_e", none)]⟩
    (fun _ _ => Except.ok ()) "x_e" ["u_e"] rfl

/-! ## C9 and C10: gravity force, altitude, potential energy -/

/-- One `add_force` invocation: the force components and the axis-frame name
they are expressed in. -/
structure ForceCall where
  Fx : Rat
  Fy : Rat
  Fz : Rat
  axes : String
deriving DecidableEq, Repr

/-- The slice of a dynamics instance these methods read: the mass (from
`mass_props`), the earth-frame z-coordinate state variable `z_e`, and the
record of forces accumulated so far. -/
structure DynF where
  mass : Rat
  z_e : Rat
  forces : List ForceCall
deriving DecidableEq, Repr

/-- Embeds `add_force` (abstract in the base class, source lines 326-349): adds a
force expressed in the chosen axis system to the instance, in place. The
frame conversion and body-frame accumulation are variant-specific; here the
call itself is recorded. The Python method mutates `self` and returns `None`;
the embedding returns the updated instance. -/
def add_force (d : DynF) (Fx Fy Fz : Rat) (axes : String) : DynF :=
  ⟨d.mass, d.z_e, d.forces ++ [⟨Fx, Fy, Fz, axes⟩]⟩

/-- Embeds `add_gravity_force` (source lines 351-357): calls
`add_force(Fz=self.mass_props.mass * g, axes="earth")`, with `Fx` and `Fy`
left at the `add_force` default 0. -/
def add_gravity_force (d : DynF) (g : Rat) : DynF :=
  add_force d 0 0 (d.mass * g) "earth"

/-- Embeds `add_gravity_force` with its default argument `g=9.81`. -/
def add_gravity_force_std (d : DynF) : DynF :=
  add_gravity_force d (981 / 100)

/-- Embeds `altitude` (source lines 479-481): the read-only property `-self.z_e`. -/
def altitude (d : DynF) : Rat :=
  - d.z_e

/-- Embeds `potential_energy` (source lines 491-498): the read-only property
`self.mass_props.mass * g * self.altitude`; as a property access, `g` always
takes its default value 9.81. -/
def potential_energy (d : DynF) (g : Rat) : Rat :=
  d.mass * g * altitude d

/-- Embeds `potential_energy` as actually accessed, with `g=9.81`. -/
def potential_energy_std (d : DynF) : Rat :=
  potential_energy d (981 / 100)

/-- C9: for every dynamics instance, `add_gravity_force(g)` is exactly the
call `add_force(Fz=mass_props.mass * g, axes="earth")` (with `Fx=Fy=0`): the
earth frame has z pointing down, so this is a force of `mass * g` directed
downward, appended to the accumulated forces; `g` defaults to 9.81; the other
attributes of the instance are untouched (the method returns `None`, mutating
in place). -/
theorem add_gravity_force_spec (d : DynF) (g : Rat) :
    add_gravity_force d g = add_force d 0 0 (d.mass * g) "earth" ∧
    (add_gravity_force d g).forces = d.forces ++ [⟨0, 0, d.mass * g, "earth"⟩] ∧
    add_gravity_force_std d = add_force d 0 0 (d.mass * (981 / 100)) "earth" ∧
    (add_gravity_force d g).mass = d.mass ∧
    (add_gravity_force d g).z_e = d.z_e :=
  ⟨rfl, rfl, rfl, rfl, rfl⟩

/-- C10: for every dynamics instance, the derived read-only `altitude` equals
the negation of the earth-frame z-coordinate, and `potential_energy` (at its
default `g=9.81`) equals `mass_props.mass * 9.81 * (-z_e)`; both are pure
functions of the instance, modifying nothing. -/
theorem altitude_potential_energy_spec (d : DynF) :
    altitude d = - d.z_e ∧
    potential_energy_std d = d.mass * (981 / 100) * (- d.z_e) :=
  ⟨rfl, rfl⟩

end AeroDyn
